import Mathlib

/-!
Shallow embedding of the classical (non-SDK) computations of the
classiq-library notebooks, and proofs of the spec's claims about them.

Embedded pieces:
* `C_iteration_prob` — the neighbor-probability vector built inside
  `C_iteration` of the quantum-walk notebook (line graph of 16 nodes).
* `round_factor` / `floor_factor` — the precision helpers of the rainbow
  option notebook (with `FRAC_PLACES = 2`); Python's banker's rounding is
  embedded as `py_round`.
* `assertion_passes` — the post-hoc confidence-interval assertion.
* `gaussian_discretization` — the Gaussian grid/pmf construction; the scipy
  normal CDF being an external library routine, the CDF appears as an
  abstract function parameter (the theorems assume it strictly monotone,
  which the normal CDF with positive scale is).
* `sanity_check_cell` — the strike-price sanity guard.
* `parse_result_integration` — the linear post-processing of the iqae result.
* `derived_constants` — the MU / CHOLESKY / SCALING_FACTOR derivation, with
  the 2x2 closed-form Cholesky factor standing for `np.linalg.cholesky`.

Python floats are embedded as `ℚ` where the code only adds, compares and
scales by powers of two, and as `ℝ` where `exp` / `sqrt` / the CDF occur.
-/

/-! ### Quantum-walk notebook: neighbor-probability vector -/

/-- The probability-vector construction at the head of `C_iteration` in the
quantum-walk notebook: `num_nodes = 2**4`, `prob = [0]*num_nodes`, endpoints
send all mass to their single neighbor, interior nodes split 0.5/0.5. -/
def C_iteration_prob (i : ℕ) : List ℚ :=
  let num_nodes : ℕ := 2 ^ 4
  let prob : List ℚ := List.replicate num_nodes 0
  if i = 0 then
    prob.set (i + 1) 1
  else if i = num_nodes - 1 then
    prob.set (i - 1) 1
  else
    (prob.set (i - 1) (1 / 2)).set (i + 1) (1 / 2)

/-- Spec-side description of the neighbor-probability vector (written from
the spec's words, for comparison with `C_iteration_prob`): endpoints assign
probability 1.0 to their single neighbor; interior nodes assign 0.5 to each
of the two neighbors; all other entries are 0. -/
def C_iteration_prob_spec (i : ℕ) : List ℚ :=
  (List.range 16).map fun j =>
    if i = 0 then (if j = 1 then 1 else 0)
    else if i = 15 then (if j = 14 then 1 else 0)
    else if j + 1 = i ∨ j = i + 1 then 1 / 2 else 0

/-! ### Rainbow-option notebook: precision utils (`FRAC_PLACES = 2`) -/

def FRAC_PLACES : ℕ := 2

/-- Python 3 `round` to the nearest integer: round half to even. -/
def py_round (x : ℚ) : ℤ :=
  if Int.fract x < 1 / 2 then ⌊x⌋
  else if 1 / 2 < Int.fract x then ⌈x⌉
  else if Even ⌊x⌋ then ⌊x⌋ else ⌊x⌋ + 1

/-- `round_factor(a) = round(a * 2**FRAC_PLACES) / 2**FRAC_PLACES`. -/
def round_factor (a : ℚ) : ℚ :=
  (py_round (a * 2 ^ FRAC_PLACES) : ℚ) / 2 ^ FRAC_PLACES

/-- `floor_factor(a) = np.floor(a * 2**FRAC_PLACES) / 2**FRAC_PLACES`. -/
def floor_factor (a : ℚ) : ℚ :=
  (⌊a * 2 ^ FRAC_PLACES⌋ : ℚ) / 2 ^ FRAC_PLACES

/-! ### Rainbow-option notebook: post-hoc assertion -/

/-- The notebook's closing assertion
`assert not (conf_interval[1] < -5 or 45 < conf_interval[0])`:
`assertion_passes ci = true` iff the assert statement succeeds. -/
def assertion_passes (ci : ℚ × ℚ) : Bool :=
  !(decide (ci.2 < -5) || decide (45 < ci.1))

/-! ### Rainbow-option notebook: Gaussian discretization -/

/-- Embedding of `np.linspace lo hi (num + 1)`: the `num + 1` evenly spaced
points from `lo` to `hi`. -/
noncomputable def linspace (lo hi : ℝ) (num : ℕ) : List ℝ :=
  (List.range (num + 1)).map fun k : ℕ => lo + (hi - lo) * (k : ℝ) / (num : ℝ)

/-- Adjacent differences `l[1:] - l[0:-1]` of a list. -/
def adjacent_diffs : List ℝ → List ℝ
  | [] => []
  | [_] => []
  | x :: y :: rest => (y - x) :: adjacent_diffs (y :: rest)

/-- `gaussian_discretization` from the rainbow-option notebook. The normal
CDF is computed by the external scipy library; it enters here as the
function parameter `cdf` (the theorems below assume it strictly monotone,
which the normal CDF with positive scale is). Returns the grid points (all
sample points but the last) and the normalized probabilities. -/
noncomputable def gaussian_discretization (cdf : ℝ → ℝ) (num_qubits : ℕ)
    (mu sigma stds_around_mean_to_include : ℝ) : List ℝ × List ℝ :=
  let lower := mu - stds_around_mean_to_include * sigma
  let upper := mu + stds_around_mean_to_include * sigma
  let num_of_bins := 2 ^ num_qubits
  let sample_points := linspace lower upper num_of_bins
  let non_normalized_pmf := adjacent_diffs (sample_points.map cdf)
  let real_probs := non_normalized_pmf.map fun p => p / non_normalized_pmf.sum
  (sample_points.dropLast, real_probs)

/-! ### Rainbow-option notebook: sanity-check guard -/

/-- `max(S0 * np.exp(np.dot(CHOLESKY, [grid_points[-1]] * 2) + MU))`: the
maximum asset value reachable in the simulation, with `g` the last grid
point. -/
noncomputable def max_reachable_asset (S0 : Fin 2 → ℝ)
    (CHOLESKY : Fin 2 → Fin 2 → ℝ) (MU : Fin 2 → ℝ) (g : ℝ) : ℝ :=
  max (S0 0 * Real.exp (CHOLESKY 0 0 * g + CHOLESKY 0 1 * g + MU 0))
      (S0 1 * Real.exp (CHOLESKY 1 0 * g + CHOLESKY 1 1 * g + MU 1))

open Classical in
/-- The sanity-check cell: when `K >= max(...)` it displays a warning (the
returned message), otherwise it displays nothing; in both cases execution
falls through to the next cell. -/
noncomputable def sanity_check_cell (K : ℝ) (S0 : Fin 2 → ℝ)
    (CHOLESKY : Fin 2 → Fin 2 → ℝ) (MU : Fin 2 → ℝ) (g : ℝ) : Option String :=
  if K ≥ max_reachable_asset S0 CHOLESKY MU g then
    some ("K always greater than the maximum asset values. Stop the run, the payoff is 0")
  else none

/-! ### Rainbow-option notebook: post-processing of the iqae result -/

/-- Raw iqae execution result: estimation and confidence interval. -/
structure IqaeResult where
  estimation : ℝ
  ci_lo : ℝ
  ci_hi : ℝ

/-- The constant `A = 1 / np.exp(exp_rate)` of `parse_result_integration`,
with `exp_rate = (1 / 2**MAX_FRAC_PLACES) * a`. -/
noncomputable def post_A (mfp : ℕ) (a : ℝ) : ℝ :=
  1 / Real.exp ((1 / 2 ^ mfp) * a)

/-- The constant `B = (np.exp(2**MAX_NUM_QUBITS * exp_rate) - 1) /
np.exp(exp_rate)` of `parse_result_integration`. -/
noncomputable def post_B (mnq mfp : ℕ) (a : ℝ) : ℝ :=
  (Real.exp (2 ^ mnq * ((1 / 2 ^ mfp) * a)) - 1) /
    Real.exp ((1 / 2 ^ mfp) * a)

/-- The constant `C = S0[0] * np.exp(MU[0] + MIN_X * CHOLESKY[0].sum())` of
`parse_result_integration`. -/
noncomputable def post_C (s0_first mu_first min_x chol_row_sum : ℝ) : ℝ :=
  s0_first * Real.exp (mu_first + min_x * chol_row_sum)

/-- The affine post-processing map `t ↦ t * (C * B) + (C * A) - K`. -/
noncomputable def post_affine (mnq mfp : ℕ)
    (a s0_first mu_first min_x chol_row_sum K t : ℝ) : ℝ :=
  t * (post_C s0_first mu_first min_x chol_row_sum * post_B mnq mfp a) +
    post_C s0_first mu_first min_x chol_row_sum * post_A mfp a - K

/-- `parse_result_integration` from the notebook: applies
`t * (C * B) + (C * A) - K` to the raw estimation and to both
confidence-interval endpoints. `MAX_NUM_QUBITS` (`mnq`) and
`MAX_FRAC_PLACES` (`mfp`) come from the SDK's numeric-attribute inference
and are carried as parameters, as are the classical constants. -/
noncomputable def parse_result_integration (mnq mfp : ℕ)
    (a s0_first mu_first min_x chol_row_sum K : ℝ) (r : IqaeResult) :
    ℝ × ℝ × ℝ :=
  let exp_rate := (1 / 2 ^ mfp) * a
  let B := (Real.exp (2 ^ mnq * exp_rate) - 1) / Real.exp exp_rate
  let A := 1 / Real.exp exp_rate
  let C := s0_first * Real.exp (mu_first + min_x * chol_row_sum)
  (r.estimation * (C * B) + C * A - K,
    r.ci_lo * (C * B) + C * A - K,
    r.ci_hi * (C * B) + C * A - K)

/-! ### Rainbow-option notebook: derived scaling constants -/

/-- Lower-triangular Cholesky factor of a 2x2 matrix, in the closed form
computed by the external `np.linalg.cholesky` on a symmetric
positive-definite input. -/
noncomputable def cholesky2 (cov : Fin 2 → Fin 2 → ℝ) : Fin 2 → Fin 2 → ℝ :=
  fun i j =>
    if i = 0 then (if j = 0 then Real.sqrt (cov 0 0) else 0)
    else
      if j = 0 then cov 1 0 / Real.sqrt (cov 0 0)
      else Real.sqrt (cov 1 1 - (cov 1 0 / Real.sqrt (cov 0 0)) ^ 2)

/-- The derived-constants cell of the rainbow-option notebook:
`MU = MU_LOG_RET * dt`, `CHOLESKY = np.linalg.cholesky(COV) * np.sqrt(dt)`,
`SCALING_FACTOR = 1 / CHOLESKY[0, 0]`. `K` and `S0` are carried as inputs
but do not enter the derivation, exactly as in the notebook cell. -/
noncomputable def derived_constants (K : ℝ) (S0 : ℝ × ℝ) (dt : ℝ)
    (COV : Fin 2 → Fin 2 → ℝ) (MU_LOG_RET : Fin 2 → ℝ) :
    (Fin 2 → ℝ) × (Fin 2 → Fin 2 → ℝ) × ℝ :=
  let MU := fun i => MU_LOG_RET i * dt
  let CHOLESKY := fun i j => cholesky2 COV i j * Real.sqrt dt
  let SCALING_FACTOR := 1 / CHOLESKY 0 0
  (MU, CHOLESKY, SCALING_FACTOR)

/-! ### Theorems -/

/-- C1: for every node index `i` in the 16-node line graph, the vector built
by `C_iteration` assigns 1.0 to node 1 when `i = 0`, 1.0 to node 14 when
`i = 15`, and 0.5 to each of `i-1`, `i+1` otherwise, with all other entries
0, and it always sums to 1; in particular node 0 yields `[0,1,0,...,0]` and
node 5 yields 0.5 at indices 4 and 6 and 0 elsewhere. -/
theorem C_iteration_prob_correct :
    (∀ i : Fin 16,
      C_iteration_prob i.val = C_iteration_prob_spec i.val ∧
        (C_iteration_prob i.val).sum = 1) ∧
    C_iteration_prob 0 = [0, 1, 0, 0, 0, 0, 0, 0, 0, 0, 0, 0, 0, 0, 0, 0] ∧
    (C_iteration_prob 5).getD 4 0 = 1 / 2 ∧
    (C_iteration_prob 5).getD 6 0 = 1 / 2 ∧
    (∀ j : Fin 16,
      j.val = 4 ∨ j.val = 6 ∨ (C_iteration_prob 5).getD j.val 0 = 0) := by
  refine ⟨fun i => ?_, rfl, rfl, rfl, by decide⟩
  fin_cases i <;> refine ⟨rfl, ?_⟩ <;> simp [C_iteration_prob] <;> norm_num

/-- Python `round` is the identity on integers. -/
theorem py_round_intCast (n : ℤ) : py_round (n : ℚ) = n := by
  norm_num [py_round, Int.fract_intCast, Int.floor_intCast]

/-- Python `round` moves a rational by at most 1/2. -/
theorem py_round_abs_le (x : ℚ) : |(py_round x : ℚ) - x| ≤ 1 / 2 := by
  have hf : x - ⌊x⌋ = Int.fract x := Int.self_sub_floor x
  have h0 : 0 ≤ Int.fract x := Int.fract_nonneg x
  have h1 : Int.fract x < 1 := Int.fract_lt_one x
  have hc1 : x ≤ (⌈x⌉ : ℚ) := Int.le_ceil x
  have hc2 : ((⌈x⌉ : ℤ) : ℚ) ≤ (⌊x⌋ : ℚ) + 1 := by
    exact_mod_cast Int.ceil_le_floor_add_one x
  rw [py_round]
  split_ifs with hlt hgt hev
  · rw [abs_le]
    constructor <;> linarith
  · rw [abs_le]
    constructor <;> linarith
  · have heq : Int.fract x = 1 / 2 := le_antisymm (not_lt.mp hgt) (not_lt.mp hlt)
    rw [abs_le]
    constructor <;> linarith
  · have heq : Int.fract x = 1 / 2 := le_antisymm (not_lt.mp hgt) (not_lt.mp hlt)
    push_cast
    rw [abs_le]
    constructor <;> linarith

/-- C5: `round_factor` and `floor_factor` are idempotent at precision
`FRAC_PLACES`. -/
theorem round_floor_factor_idempotent (a : ℚ) :
    round_factor (round_factor a) = round_factor a ∧
      floor_factor (floor_factor a) = floor_factor a := by
  have h4 : ((2 : ℚ) ^ FRAC_PLACES) ≠ 0 := by norm_num [FRAC_PLACES]
  constructor
  · show (py_round (round_factor a * 2 ^ FRAC_PLACES) : ℚ) / 2 ^ FRAC_PLACES =
      round_factor a
    rw [round_factor, div_mul_cancel₀ _ h4, py_round_intCast]
  · show (⌊floor_factor a * 2 ^ FRAC_PLACES⌋ : ℚ) / 2 ^ FRAC_PLACES =
      floor_factor a
    rw [floor_factor, div_mul_cancel₀ _ h4, Int.floor_intCast]

/-- C9: `floor_factor a` is an integer multiple of `2^(-FRAC_PLACES)` with
`floor_factor a ≤ a < floor_factor a + 2^(-FRAC_PLACES)`, and
`round_factor a` is an integer multiple of `2^(-FRAC_PLACES)` within
`2^(-(FRAC_PLACES+1))` of `a`. -/
theorem round_floor_factor_precision (a : ℚ) :
    (∃ k : ℤ, floor_factor a = (k : ℚ) / 2 ^ FRAC_PLACES) ∧
      floor_factor a ≤ a ∧
      a < floor_factor a + 1 / 2 ^ FRAC_PLACES ∧
      (∃ m : ℤ, round_factor a = (m : ℚ) / 2 ^ FRAC_PLACES) ∧
      |round_factor a - a| ≤ 1 / 2 ^ (FRAC_PLACES + 1) := by
  have h2 : ((2 : ℚ) ^ FRAC_PLACES) = 4 := by norm_num [FRAC_PLACES]
  have h3 : ((2 : ℚ) ^ (FRAC_PLACES + 1)) = 8 := by norm_num [FRAC_PLACES]
  refine ⟨⟨⌊a * 2 ^ FRAC_PLACES⌋, rfl⟩, ?_, ?_,
    ⟨py_round (a * 2 ^ FRAC_PLACES), rfl⟩, ?_⟩
  · rw [floor_factor, h2, div_le_iff₀ (by norm_num : (0 : ℚ) < 4)]
    exact Int.floor_le (a * 4)
  · rw [floor_factor, h2]
    have h := Int.lt_floor_add_one (a * 4)
    linarith
  · rw [round_factor, h2, h3]
    have h := py_round_abs_le (a * 4)
    have hsplit : (py_round (a * 4) : ℚ) / 4 - a =
        ((py_round (a * 4) : ℚ) - a * 4) / 4 := by ring
    rw [hsplit, abs_le] at *
    rcases h with ⟨hl, hr⟩
    constructor <;> linarith

/-- C4 counterexample: the interval `(-100, 100)` is not within `[-5, 45]`,
yet the notebook's assertion succeeds on it. -/
theorem assertion_passes_outside_range :
    assertion_passes (-100, 100) = true ∧
      ¬((-5 : ℚ) ≤ -100 ∧ (100 : ℚ) ≤ 45) := by
  constructor
  · norm_num [assertion_passes]
  · norm_num

/-- C4 (amended): the assertion succeeds exactly when the interval is not
entirely below `-5` and not entirely above `45`, i.e. `-5 ≤ ci.2` and
`ci.1 ≤ 45`. -/
theorem assertion_passes_iff (ci : ℚ × ℚ) :
    assertion_passes ci = true ↔ -5 ≤ ci.2 ∧ ci.1 ≤ 45 := by
  simp [assertion_passes, not_lt]

/-- Auxiliary: length of adjacent differences. -/
theorem adjacent_diffs_length (l : List ℝ) :
    (adjacent_diffs l).length = l.length - 1 := by
  induction l with
  | nil => simp [adjacent_diffs]
  | cons x t ih =>
    cases t with
    | nil => simp [adjacent_diffs]
    | cons y rest =>
      show ((y - x) :: adjacent_diffs (y :: rest)).length =
        (x :: y :: rest).length - 1
      simp only [List.length_cons, ih]
      omega

/-- Auxiliary: adjacent differences telescope to last minus first. -/
theorem adjacent_diffs_sum (l : List ℝ) :
    (adjacent_diffs l).sum = l.getD (l.length - 1) 0 - l.getD 0 0 := by
  induction l with
  | nil => simp [adjacent_diffs]
  | cons x t ih =>
    cases t with
    | nil => simp [adjacent_diffs]
    | cons y rest =>
      show ((y - x) :: adjacent_diffs (y :: rest)).sum =
        (x :: y :: rest).getD ((x :: y :: rest).length - 1) 0 -
          (x :: y :: rest).getD 0 0
      rw [List.sum_cons, ih]
      simp only [List.length_cons, Nat.add_sub_cancel, List.getD_cons_succ,
        List.getD_cons_zero]
      ring

/-- Auxiliary: a sum of elementwise quotients is the quotient of the sum. -/
theorem list_sum_map_div (l : List ℝ) (c : ℝ) :
    (l.map fun p => p / c).sum = l.sum / c := by
  induction l with
  | nil => simp
  | cons x t ih => simp [ih, add_div]

/-- Auxiliary: `linspace` produces `num + 1` points. -/
theorem linspace_length (lo hi : ℝ) (num : ℕ) :
    (linspace lo hi num).length = num + 1 := by
  simp [linspace]

/-- Auxiliary: the `k`-th point of `linspace`. -/
theorem linspace_getD (lo hi : ℝ) (num k : ℕ) (hk : k ≤ num) :
    (linspace lo hi num).getD k 0 = lo + (hi - lo) * k / num := by
  rw [linspace, List.getD_eq_getElem?_getD, List.getElem?_map,
    List.getElem?_eq_getElem (by simpa using Nat.lt_succ_of_le hk)]
  simp

/-- Auxiliary: `getD` commutes with `map` at an in-range index. -/
theorem getD_map_of_lt (f : ℝ → ℝ) (l : List ℝ) (k : ℕ) (hk : k < l.length)
    (d d' : ℝ) : (l.map f).getD k d = f (l.getD k d') := by
  rw [List.getD_eq_getElem?_getD, List.getElem?_map,
    List.getElem?_eq_getElem hk, List.getD_eq_getElem?_getD,
    List.getElem?_eq_getElem hk]
  simp

/-- C2: the probabilities returned by `gaussian_discretization` sum to 1 for
every `num_qubits`, because the raw CDF differences are divided by their own
sum (the CDF being strictly monotone and the grid nondegenerate, that sum is
nonzero). -/
theorem gaussian_discretization_sum_one (cdf : ℝ → ℝ) (num_qubits : ℕ)
    (mu sigma stds : ℝ) (hmono : StrictMono cdf) (hsigma : 0 < sigma)
    (hstds : 0 < stds) :
    (gaussian_discretization cdf num_qubits mu sigma stds).2.sum = 1 := by
  have hN : (2 : ℕ) ^ num_qubits ≠ 0 := by positivity
  have hNR : (((2 : ℕ) ^ num_qubits : ℕ) : ℝ) ≠ 0 := Nat.cast_ne_zero.mpr hN
  have hlt : mu - stds * sigma < mu + stds * sigma := by nlinarith
  have hne : cdf (mu + stds * sigma) - cdf (mu - stds * sigma) ≠ 0 :=
    sub_ne_zero.mpr (ne_of_gt (hmono hlt))
  show ((adjacent_diffs
      (((linspace (mu - stds * sigma) (mu + stds * sigma)
        (2 ^ num_qubits))).map cdf)).map
        fun p => p / (adjacent_diffs
          (((linspace (mu - stds * sigma) (mu + stds * sigma)
            (2 ^ num_qubits))).map cdf)).sum).sum = 1
  rw [list_sum_map_div]
  have hsum : (adjacent_diffs
      (((linspace (mu - stds * sigma) (mu + stds * sigma)
        (2 ^ num_qubits))).map cdf)).sum =
      cdf (mu + stds * sigma) - cdf (mu - stds * sigma) := by
    rw [adjacent_diffs_sum, List.length_map, linspace_length,
      Nat.add_sub_cancel,
      getD_map_of_lt cdf _ _
        (by rw [linspace_length]; exact Nat.lt_succ_self _) 0 0,
      getD_map_of_lt cdf _ _
        (by rw [linspace_length]; exact Nat.succ_pos _) 0 0,
      linspace_getD _ _ _ _ le_rfl, linspace_getD _ _ _ _ (Nat.zero_le _)]
    have hhi : mu - stds * sigma +
        (mu + stds * sigma - (mu - stds * sigma)) *
          ((2 ^ num_qubits : ℕ) : ℝ) / ((2 ^ num_qubits : ℕ) : ℝ) =
        mu + stds * sigma := by
      field_simp
    have hlo : mu - stds * sigma +
        (mu + stds * sigma - (mu - stds * sigma)) *
          ((0 : ℕ) : ℝ) / ((2 ^ num_qubits : ℕ) : ℝ) =
        mu - stds * sigma := by
      simp
    rw [hhi, hlo]
  rw [hsum, div_self hne]

/-- C8: `gaussian_discretization` returns `2^n` grid points and `2^n`
probabilities; the grid points are the first `2^n` entries of the
`2^n + 1`-point uniform partition of `[mu - k*sigma, mu + k*sigma]`, a
strictly increasing arithmetic progression with step `(upper - lower)/2^n`. -/
theorem gaussian_discretization_grid (cdf : ℝ → ℝ) (num_qubits : ℕ)
    (mu sigma stds : ℝ) (hsigma : 0 < sigma) (hstds : 0 < stds) :
    (gaussian_discretization cdf num_qubits mu sigma stds).1.length =
      2 ^ num_qubits ∧
    (gaussian_discretization cdf num_qubits mu sigma stds).2.length =
      2 ^ num_qubits ∧
    (gaussian_discretization cdf num_qubits mu sigma stds).1 =
      (List.range (2 ^ num_qubits)).map
        (fun k : ℕ => (mu - stds * sigma) +
          ((mu + stds * sigma) - (mu - stds * sigma)) * (k : ℝ) /
            ((2 ^ num_qubits : ℕ) : ℝ)) ∧
    List.Pairwise (· < ·)
      (gaussian_discretization cdf num_qubits mu sigma stds).1 := by
  have h1 : (gaussian_discretization cdf num_qubits mu sigma stds).1 =
      (List.range (2 ^ num_qubits)).map
        (fun k : ℕ => (mu - stds * sigma) +
          ((mu + stds * sigma) - (mu - stds * sigma)) * (k : ℝ) /
            ((2 ^ num_qubits : ℕ) : ℝ)) := by
    show (linspace (mu - stds * sigma) (mu + stds * sigma)
      (2 ^ num_qubits)).dropLast = _
    rw [linspace, show (2 ^ num_qubits + 1 : ℕ) = (2 ^ num_qubits : ℕ).succ
      from rfl, List.range_succ, List.map_append, List.map_singleton,
      List.dropLast_concat]
  refine ⟨?_, ?_, h1, ?_⟩
  · rw [h1]
    simp
  · show ((adjacent_diffs
      (((linspace (mu - stds * sigma) (mu + stds * sigma)
        (2 ^ num_qubits))).map cdf)).map
        fun p => p / (adjacent_diffs
          (((linspace (mu - stds * sigma) (mu + stds * sigma)
            (2 ^ num_qubits))).map cdf)).sum).length = 2 ^ num_qubits
    rw [List.length_map, adjacent_diffs_length, List.length_map,
      linspace_length, Nat.add_sub_cancel]
  · rw [h1]
    refine List.Pairwise.map _ ?_ (List.pairwise_lt_range (2 ^ num_qubits))
    intro a b hab
    have hΔ : (0 : ℝ) < (mu + stds * sigma) - (mu - stds * sigma) := by
      nlinarith
    have hNpos : (0 : ℝ) < ((2 ^ num_qubits : ℕ) : ℝ) := by positivity
    have hab' : (a : ℝ) < b := by exact_mod_cast hab
    have hmul := mul_lt_mul_of_pos_left hab' hΔ
    exact add_lt_add_left (div_lt_div_of_pos_right hmul hNpos) _

/-- C2 witness: concrete instance with the identity as CDF, one qubit and
the default parameters. -/
theorem gaussian_discretization_sum_one_witness :
    (gaussian_discretization id 1 0 1 3).2.sum = 1 :=
  gaussian_discretization_sum_one id 1 0 1 3 strictMono_id one_pos
    (by norm_num)

/-- C8 witness: concrete instance with the identity as CDF, one qubit and
the default parameters. -/
theorem gaussian_discretization_grid_witness :
    (gaussian_discretization id 1 0 1 3).1.length = 2 ^ 1 ∧
    (gaussian_discretization id 1 0 1 3).2.length = 2 ^ 1 ∧
    (gaussian_discretization id 1 0 1 3).1 =
      (List.range (2 ^ 1)).map
        (fun k : ℕ => (0 - 3 * 1) +
          ((0 + 3 * 1) - (0 - 3 * 1)) * (k : ℝ) / ((2 ^ 1 : ℕ) : ℝ)) ∧
    List.Pairwise (· < ·) (gaussian_discretization id 1 0 1 3).1 :=
  gaussian_discretization_grid id 1 0 1 3 one_pos (by norm_num)

/-- C10: the vector built by `C_iteration` assigns probability 0 to node `i`
itself, and every node carrying nonzero probability is `i-1` or `i+1`. -/
theorem C_iteration_prob_support :
    ∀ i : Fin 16,
      (C_iteration_prob i.val).getD i.val 0 = 0 ∧
        ∀ j : Fin 16,
          ((j.val : ℤ) = (i.val : ℤ) - 1 ∨ (j.val : ℤ) = (i.val : ℤ) + 1) ∨
            (C_iteration_prob i.val).getD j.val 0 = 0 := by
  decide

/-- C3 counterexample: with `S0 = (1,1)`, zero Cholesky factor, zero drift
and last grid point 0, the maximum reachable asset value is 1; at `K = 1`
the guard displays the warning although `K` does not exceed the maximum. -/
theorem sanity_check_cell_fires_at_equality :
    (sanity_check_cell 1 (fun _ => 1) (fun _ _ => 0) (fun _ => 0) 0).isSome
        = true ∧
      ¬ max_reachable_asset (fun _ => 1) (fun _ _ => 0) (fun _ => 0) 0 < 1 := by
  have hmax :
      max_reachable_asset (fun _ => 1) (fun _ _ => 0) (fun _ => 0) 0 = 1 := by
    simp [max_reachable_asset, Real.exp_zero]
  refine ⟨?_, by rw [hmax]; exact lt_irrefl 1⟩
  simp [sanity_check_cell, hmax]

/-- C3 (amended): the cell displays the warning exactly when `K` is greater
than *or equal to* the maximum reachable asset value (the notebook compares
with `>=`, so the warning also appears when `K` equals the maximum); the
cell never stops execution, it only displays. -/
theorem sanity_check_cell_isSome_iff (K : ℝ) (S0 : Fin 2 → ℝ)
    (CH : Fin 2 → Fin 2 → ℝ) (MU : Fin 2 → ℝ) (g : ℝ) :
    (sanity_check_cell K S0 CH MU g).isSome = true ↔
      max (S0 0 * Real.exp (CH 0 0 * g + CH 0 1 * g + MU 0))
          (S0 1 * Real.exp (CH 1 0 * g + CH 1 1 * g + MU 1)) ≤ K := by
  rw [sanity_check_cell]
  by_cases h : K ≥ max_reachable_asset S0 CH MU g
  · rw [if_pos h]
    simpa [max_reachable_asset] using h
  · rw [if_neg h]
    simpa [max_reachable_asset] using h

/-- C6: `parse_result_integration` applies one and the same affine map
`t ↦ t*(C*B) + (C*A) - K` to the raw estimation and to both raw
confidence-interval endpoints; when `C*B ≥ 0` the transformed endpoints
keep their order. -/
theorem parse_result_integration_affine (mnq mfp : ℕ)
    (a s0_first mu_first min_x chol_row_sum K : ℝ) (r : IqaeResult)
    (hci : r.ci_lo ≤ r.ci_hi)
    (hcb : 0 ≤ post_C s0_first mu_first min_x chol_row_sum *
      post_B mnq mfp a) :
    parse_result_integration mnq mfp a s0_first mu_first min_x chol_row_sum
        K r =
      (post_affine mnq mfp a s0_first mu_first min_x chol_row_sum K
          r.estimation,
        post_affine mnq mfp a s0_first mu_first min_x chol_row_sum K r.ci_lo,
        post_affine mnq mfp a s0_first mu_first min_x chol_row_sum K
          r.ci_hi) ∧
      post_affine mnq mfp a s0_first mu_first min_x chol_row_sum K r.ci_lo ≤
        post_affine mnq mfp a s0_first mu_first min_x chol_row_sum K
          r.ci_hi := by
  constructor
  · rfl
  · unfold post_affine
    have h := mul_le_mul_of_nonneg_right hci hcb
    linarith

/-- C6 witness: concrete instance with `a = 0` (so `C*B = 0`) and the raw
interval `(0, 1)`. -/
theorem parse_result_integration_affine_witness :
    parse_result_integration 0 0 0 1 0 0 0 0 ⟨0, 0, 1⟩ =
      (post_affine 0 0 0 1 0 0 0 0 0, post_affine 0 0 0 1 0 0 0 0 0,
        post_affine 0 0 0 1 0 0 0 0 1) ∧
      post_affine 0 0 0 1 0 0 0 0 0 ≤ post_affine 0 0 0 1 0 0 0 0 1 :=
  parse_result_integration_affine 0 0 0 1 0 0 0 0 ⟨0, 0, 1⟩ (by norm_num)
    (by norm_num [post_B, post_C, Real.exp_zero])

/-- C7: with equal inputs the derived-constants cell produces equal outputs
(`MU`, `CHOLESKY`, `SCALING_FACTOR`), and the scaling factor equals
`1 / (sqrt(COV[0,0]) * sqrt(dt))`. -/
theorem derived_constants_deterministic (K K' : ℝ) (S0 S0' : ℝ × ℝ)
    (dt dt' : ℝ) (COV COV' : Fin 2 → Fin 2 → ℝ)
    (MU_LOG_RET MU_LOG_RET' : Fin 2 → ℝ) (hK : K = K') (hS : S0 = S0')
    (hdt : dt = dt') (hC : COV = COV') (hM : MU_LOG_RET = MU_LOG_RET') :
    derived_constants K S0 dt COV MU_LOG_RET =
        derived_constants K' S0' dt' COV' MU_LOG_RET' ∧
      (derived_constants K S0 dt COV MU_LOG_RET).2.2 =
        1 / (Real.sqrt (COV 0 0) * Real.sqrt dt) := by
  subst hK hS hdt hC hM
  refine ⟨rfl, ?_⟩
  simp [derived_constants, cholesky2]

/-- C7 witness: the documented option parameters `K = 190`,
`S0 = [193.97, 189.12]`, `dt = 250`, with the documented covariance matrix
and log-return means. -/
theorem derived_constants_deterministic_witness :
    derived_constants 190 (193.97, 189.12) 250
        ![![0.000335, 0.000257], ![0.000257, 0.000418]]
        ![0.00050963, 0.00062552] =
      derived_constants 190 (193.97, 189.12) 250
        ![![0.000335, 0.000257], ![0.000257, 0.000418]]
        ![0.00050963, 0.00062552] ∧
    (derived_constants 190 (193.97, 189.12) 250
        ![![0.000335, 0.000257], ![0.000257, 0.000418]]
        ![0.00050963, 0.00062552]).2.2 =
      1 / (Real.sqrt (![![0.000335, 0.000257], ![0.000257, 0.000418]] 0 0) *
        Real.sqrt 250) :=
  derived_constants_deterministic 190 190 (193.97, 189.12) (193.97, 189.12)
    250 250 ![![0.000335, 0.000257], ![0.000257, 0.000418]]
    ![![0.000335, 0.000257], ![0.000257, 0.000418]]
    ![0.00050963, 0.00062552] ![0.00050963, 0.00062552] rfl rfl rfl rfl rfl
